import Mathlib

/-!
Verification of the arithmetic-gate shader layer and the boolean shader
coder of the Quirk repository (src/src/gates/ArithmeticGates.js, which also
contains the ShaderCoders part after the module separator).

Shallow embedding conventions:
* GLSL floats hold exact small integers here (the source caps spans at 16,
  far below 2^24), so shader-body arithmetic is embedded over ℤ.
* GLSL `mod(x, y)` with positive `y` returns a value in [0, y); Lean's `%`
  on ℤ is `Int.emod`, which has exactly this behaviour, and `floor(x / y)`
  for nonnegative `x` and positive `y` is `Int.ediv`, Lean's `/` on ℤ.
* JavaScript bitwise operators convert their operands to 32-bit two's
  complement; `jsAnd` below reproduces that conversion.  Where both
  operands are known small nonnegative numbers the JS `&`, `>>`, `<<` are
  embedded as the corresponding ℕ operations.
-/

namespace Quirk

/-- JavaScript ToUint32: the operand reduced into [0, 2^32). -/
def jsToUint32 (a : ℤ) : ℕ := (a % (2:ℤ)^32).toNat

/-- JavaScript bitwise AND `a & b`: both operands are converted to 32-bit
two's complement, the bitwise AND is taken, and the result is read back as
a signed 32-bit integer. -/
def jsAnd (a b : ℤ) : ℤ :=
  let r := jsToUint32 a &&& jsToUint32 b
  if r < 2^31 then (r : ℤ) else (r : ℤ) - 2^32

/-- Shared GLSL fragment `mod(floor(full_out_id / srcOffset), srcSpan)`
(ArithmeticGates.js lines 57, 69, 82, 95, 96): extracts an auxiliary bit
range from the full basis-state index.  The callers bind the uniforms as
`srcOffset = 2^offset` and `srcSpan = 2^length`. -/
def extractAuxRange (srcOffset srcSpan full_out_id : ℤ) : ℤ :=
  (full_out_id / srcOffset) % srcSpan

/-- Body of `incrementShader` (ArithmeticGates.js lines 44-46):
`return mod(out_id - amount + span, span);` where the `span` uniform holds
2^qubitSpan. -/
def incrementShaderBody (span amount out_id : ℤ) : ℤ :=
  (out_id - amount + span) % span

/-- Body of `FLIP_SHADER` (ArithmeticGates.js lines 54-58). -/
def FLIP_SHADER_body (span srcOffset srcSpan full_out_id out_id : ℤ) : ℤ :=
  let d := extractAuxRange srcOffset srcSpan full_out_id
  if out_id ≥ d then out_id else (d - 1 - out_id) % span

/-- Body of `FLIP_SHADER_2` (ArithmeticGates.js lines 66-70). -/
def FLIP_SHADER_2_body (span srcOffset srcSpan full_out_id out_id : ℤ) : ℤ :=
  let d := extractAuxRange srcOffset srcSpan full_out_id
  if out_id > d then out_id else (d - out_id) % span

/-- Body of `ADDITION_SHADER` (ArithmeticGates.js lines 79-85). -/
def ADDITION_SHADER_body (span srcOffset srcSpan factor full_out_id out_id : ℤ) : ℤ :=
  let d := extractAuxRange srcOffset srcSpan full_out_id
  let d := d * factor
  let d := d % span
  (out_id + span - d) % span

/-- Body of the shader built by `customComparisonShader` (ArithmeticGates.js
lines 91-97), parameterized by the compare expression spliced into the
template. -/
def customComparisonShaderBody (compare : ℤ → ℤ → Bool)
    (lhsOffset lhsSpan rhsOffset rhsSpan full_out_id out_id : ℤ) : ℤ :=
  let lhs := extractAuxRange lhsOffset lhsSpan full_out_id
  let rhs := extractAuxRange rhsOffset rhsSpan full_out_id
  (out_id + (if compare lhs rhs then 1 else 0)) % 2

/-- The three canonical shader shapes of the synthesis layer. -/
inductive KetShaderKind where
  | general
  | permutation
  | phase
deriving DecidableEq

/-- Shape constructor used by `customComparisonShader` (ArithmeticGates.js
line 92): `ketShaderPermute`. -/
def customComparisonShaderKind : KetShaderKind := KetShaderKind.permutation

/-- Modelled from the spec: `Matrix.generateTransition(n, f)` lives in
Matrix.js, which is not under src/; per the spec it builds the dense matrix
of the basis-state relabeling sending state `e` to state `f e`
(KetShaderUtil.test.js lines 25-33 pins this orientation against the
permutation shader shape).  The matrix is represented by its size and its
forward state map. -/
structure TransitionMatrix where
  size : ℕ
  map : ℕ → ℕ

/-- Modelled from the spec: constructor for `Matrix.generateTransition`. -/
def generateTransition (n : ℕ) (f : ℕ → ℕ) : TransitionMatrix :=
  TransitionMatrix.mk n f

/-- makeOffsetMatrix (ArithmeticGates.js lines 10-11):
`Matrix.generateTransition(1<<qubitSpan, e => (e + offset) & ((1<<qubitSpan)-1))`.
`offset` may be negative (the decrement maker passes -1), so the JS `&` is
embedded via `jsAnd`. -/
def makeOffsetMatrix (offset : ℤ) (qubitSpan : ℕ) : TransitionMatrix :=
  generateTransition (1 <<< qubitSpan)
    (fun e => (jsAnd ((e : ℤ) + offset) (((1 <<< qubitSpan : ℕ) : ℤ) - 1)).toNat)

/-- INCREMENT_MATRIX_MAKER (ArithmeticGates.js line 13). -/
def INCREMENT_MATRIX_MAKER (span : ℕ) : TransitionMatrix := makeOffsetMatrix 1 span

/-- DECREMENT_MATRIX_MAKER (ArithmeticGates.js line 14). -/
def DECREMENT_MATRIX_MAKER (span : ℕ) : TransitionMatrix := makeOffsetMatrix (-1) span

/-- ADDITION_MATRIX_MAKER (ArithmeticGates.js lines 15-23).  All
intermediate values are nonnegative and far below 2^31, so the JS `&`,
`>>`, `<<` are the plain ℕ bitwise operations. -/
def ADDITION_MATRIX_MAKER (span : ℕ) : TransitionMatrix :=
  generateTransition (1 <<< span) (fun e =>
    let sa := span / 2
    let sb := (span + 1) / 2
    let a := e &&& ((1 <<< sa) - 1)
    let b := e >>> sa
    let b := b + a
    let b := b &&& ((1 <<< sb) - 1)
    a + (b <<< sa))

/-- SUBTRACTION_MATRIX_MAKER (ArithmeticGates.js lines 24-32).  Here
`b -= a` can go negative, so `b` is tracked in ℤ and the JS `&` is
embedded via `jsAnd`; the result of the masking is nonnegative, and
`.toNat` merely repairs the type for the recombination. -/
def SUBTRACTION_MATRIX_MAKER (span : ℕ) : TransitionMatrix :=
  generateTransition (1 <<< span) (fun e =>
    let sa := span / 2
    let sb := (span + 1) / 2
    let a := e &&& ((1 <<< sa) - 1)
    let b : ℤ := (e >>> sa : ℕ)
    let b := b - (a : ℤ)
    let b := jsAnd b (((1 <<< sb : ℕ) : ℤ) - 1)
    a + (b.toNat <<< sa))

/-- Masking through the JavaScript bitwise AND with a low mask agrees with
the mathematical remainder. -/
theorem jsAnd_two_pow_sub_one (x : ℤ) (m : ℕ) (hm : m ≤ 31) :
    jsAnd x ((2:ℤ)^m - 1) = x % 2^m := by
  have hn : 1 ≤ 2^m := Nat.one_le_two_pow
  have hcast : ((2:ℤ)^m - 1) = ((2^m - 1 : ℕ) : ℤ) := by push_cast [hn]; ring
  have hmask : jsToUint32 ((2:ℤ)^m - 1) = 2^m - 1 := by
    unfold jsToUint32
    rw [Int.emod_eq_of_lt, hcast, Int.toNat_natCast]
    · have : (0:ℤ) < 2^m := by positivity
      omega
    · have : (2:ℤ)^m ≤ 2^32 := pow_le_pow_right₀ (by norm_num) (by omega)
      omega
  unfold jsAnd
  rw [hmask, Nat.and_pow_two_sub_one_eq_mod]
  have hlt : jsToUint32 x % 2^m < 2^31 := by
    calc jsToUint32 x % 2^m < 2^m := Nat.mod_lt _ (by positivity)
    _ ≤ 2^31 := Nat.pow_le_pow_right (by norm_num) hm
  rw [if_pos hlt]
  have hx0 : (0:ℤ) ≤ x % 2^32 := Int.emod_nonneg x (by positivity)
  have hcast2 : ((jsToUint32 x % 2^m : ℕ) : ℤ) = (x % 2^32) % 2^m := by
    unfold jsToUint32
    push_cast
    rw [Int.toNat_of_nonneg (Int.emod_nonneg x (by norm_num))]
  rw [hcast2, Int.emod_emod_of_dvd x (pow_dvd_pow 2 (by omega : m ≤ 32))]

/-- C2: for every span in [2,16], with sa = floor(span/2) and
sb = ceil(span/2), the addition gate maps basis state e (addend
a = e mod 2^sa, accumulator b = e / 2^sa) to a + ((b+a) mod 2^sb)·2^sa,
the subtraction gate maps it to a + ((b-a) mod 2^sb)·2^sa, and both leave
the addend half unchanged. -/
theorem additionSubtraction_maps (span : ℕ) (h2 : 2 ≤ span) (h16 : span ≤ 16)
    (e : ℕ) (he : e < 2^span) :
    (ADDITION_MATRIX_MAKER span).map e
        = e % 2^(span/2) + (e / 2^(span/2) + e % 2^(span/2)) % 2^((span+1)/2) * 2^(span/2)
    ∧ ((SUBTRACTION_MATRIX_MAKER span).map e : ℤ)
        = ((e % 2^(span/2) : ℕ) : ℤ)
          + (((e / 2^(span/2) : ℕ) : ℤ) - ((e % 2^(span/2) : ℕ) : ℤ)) % 2^((span+1)/2)
            * 2^(span/2)
    ∧ (ADDITION_MATRIX_MAKER span).map e % 2^(span/2) = e % 2^(span/2)
    ∧ (SUBTRACTION_MATRIX_MAKER span).map e % 2^(span/2) = e % 2^(span/2) := by
  have hadd : (ADDITION_MATRIX_MAKER span).map e
      = e % 2^(span/2) + (e / 2^(span/2) + e % 2^(span/2)) % 2^((span+1)/2) * 2^(span/2) := by
    show (let sa := span / 2
      let sb := (span + 1) / 2
      let a := e &&& ((1 <<< sa) - 1)
      let b := e >>> sa
      let b := b + a
      let b := b &&& ((1 <<< sb) - 1)
      a + (b <<< sa)) = _
    simp only [Nat.shiftLeft_eq, Nat.shiftRight_eq_div_pow, one_mul,
      Nat.and_pow_two_sub_one_eq_mod]
  have hsb31 : (span + 1) / 2 ≤ 31 := by omega
  have hsubZ : jsAnd (((e / 2^(span/2) : ℕ) : ℤ) - ((e % 2^(span/2) : ℕ) : ℤ))
        (((1 <<< ((span+1)/2) : ℕ) : ℤ) - 1)
      = (((e / 2^(span/2) : ℕ) : ℤ) - ((e % 2^(span/2) : ℕ) : ℤ)) % 2^((span+1)/2) := by
    have : (((1 <<< ((span+1)/2) : ℕ) : ℤ) - 1) = (2:ℤ)^((span+1)/2) - 1 := by
      rw [Nat.shiftLeft_eq, one_mul]; push_cast; ring
    rw [this, jsAnd_two_pow_sub_one _ _ hsb31]
  have hmod0 : (0:ℤ) ≤ (((e / 2^(span/2) : ℕ) : ℤ) - ((e % 2^(span/2) : ℕ) : ℤ)) % 2^((span+1)/2) :=
    Int.emod_nonneg _ (by positivity)
  have hsub : ((SUBTRACTION_MATRIX_MAKER span).map e : ℤ)
      = ((e % 2^(span/2) : ℕ) : ℤ)
        + (((e / 2^(span/2) : ℕ) : ℤ) - ((e % 2^(span/2) : ℕ) : ℤ)) % 2^((span+1)/2)
          * 2^(span/2) := by
    show (((let sa := span / 2
      let sb := (span + 1) / 2
      let a := e &&& ((1 <<< sa) - 1)
      let b : ℤ := (e >>> sa : ℕ)
      let b := b - (a : ℤ)
      let b := jsAnd b (((1 <<< sb : ℕ) : ℤ) - 1)
      a + (b.toNat <<< sa)) : ℕ) : ℤ) = _
    simp only [Nat.shiftRight_eq_div_pow, Nat.and_pow_two_sub_one_eq_mod,
      Nat.shiftLeft_eq, one_mul] at hsubZ ⊢
    rw [hsubZ]
    push_cast [Int.toNat_of_nonneg (by simpa using hmod0)]
    ring
  refine ⟨hadd, hsub, ?_, ?_⟩
  · rw [hadd, Nat.add_mul_mod_self_right, Nat.mod_mod_of_dvd e dvd_rfl]
  · have : ((SUBTRACTION_MATRIX_MAKER span).map e : ℤ) % 2^(span/2)
        = ((e % 2^(span/2) : ℕ) : ℤ) % 2^(span/2) := by
      rw [hsub, Int.add_mul_emod_self]
    have h2' : ((e % 2^(span/2) : ℕ) : ℤ) % 2^(span/2) = ((e % 2^(span/2) % 2^(span/2) : ℕ) : ℤ) := by
      push_cast; ring_nf
    rw [h2', Nat.mod_mod_of_dvd e dvd_rfl] at this
    exact_mod_cast this

/-- Witness for C2 at span = 4, e = 7. -/
theorem additionSubtraction_maps_witness :
    (ADDITION_MATRIX_MAKER 4).map 7
        = 7 % 2^(4/2) + (7 / 2^(4/2) + 7 % 2^(4/2)) % 2^((4+1)/2) * 2^(4/2)
    ∧ ((SUBTRACTION_MATRIX_MAKER 4).map 7 : ℤ)
        = ((7 % 2^(4/2) : ℕ) : ℤ)
          + (((7 / 2^(4/2) : ℕ) : ℤ) - ((7 % 2^(4/2) : ℕ) : ℤ)) % 2^((4+1)/2)
            * 2^(4/2)
    ∧ (ADDITION_MATRIX_MAKER 4).map 7 % 2^(4/2) = 7 % 2^(4/2)
    ∧ (SUBTRACTION_MATRIX_MAKER 4).map 7 % 2^(4/2) = 7 % 2^(4/2) :=
  additionSubtraction_maps 4 (by norm_num) (by norm_num) 7 (by norm_num)

/-- C1: for every non-negative full_out_id, offset o and length L, the
value the synthesized shaders extract for the auxiliary range (with the
uniform bindings srcOffset = 2^o, srcSpan = 2^L from the `withArgs` calls)
equals mod(floor(full_out_id / 2^o), 2^L); in particular full_out_id = 22,
offset 1, length 3 extracts 3. -/
theorem extractAuxRange_spec :
    (∀ full_out_id o L : ℕ,
      extractAuxRange ((2:ℤ)^o) ((2:ℤ)^L) (full_out_id : ℤ) =
        ((full_out_id / 2^o % 2^L : ℕ) : ℤ))
    ∧ extractAuxRange ((2:ℤ)^1) ((2:ℤ)^3) 22 = 3 := by
  constructor
  · intro full_out_id o L
    unfold extractAuxRange
    push_cast
    rfl
  · decide

/-- Dropping an inner remainder inside a subtraction does not change the
remainder of the whole expression. -/
theorem emod_sub_emod (a b n : ℤ) : (a - b % n) % n = (a - b) % n := by
  rw [Int.sub_emod a (b % n), Int.emod_emod_of_dvd b dvd_rfl, ← Int.sub_emod]

/-- C3: composing a permutation gate with its declared inverse is the
identity on every basis state of every supported span: the increment
permutation (amount = +1) followed by the decrement permutation
(amount = -1) restores out_id, and the +A permutation (factor = +1)
followed by the -A permutation (factor = -1), reading the same auxiliary
range value, restores out_id. -/
theorem incrementDecrement_inverse (span : ℕ) (h1 : 1 ≤ span) (h16 : span ≤ 16)
    (out_id : ℤ) (h0 : 0 ≤ out_id) (hlt : out_id < 2^span) :
    incrementShaderBody ((2:ℤ)^span) (-1) (incrementShaderBody ((2:ℤ)^span) 1 out_id) = out_id
    ∧ ∀ inputOffset inputLength : ℕ, ∀ full_out_id : ℤ, 0 ≤ full_out_id →
        ADDITION_SHADER_body ((2:ℤ)^span) ((2:ℤ)^inputOffset) ((2:ℤ)^inputLength) (-1)
          full_out_id
          (ADDITION_SHADER_body ((2:ℤ)^span) ((2:ℤ)^inputOffset) ((2:ℤ)^inputLength) 1
            full_out_id out_id)
        = out_id := by
  set N : ℤ := (2:ℤ)^span with hNdef
  constructor
  · unfold incrementShaderBody
    rw [show (out_id - 1 + N) % N - -1 + N = (out_id - 1 + N) % N + (1 + N) by ring,
      Int.emod_add_emod,
      show out_id - 1 + N + (1 + N) = out_id + N * 2 by ring,
      Int.add_mul_emod_self_left]
    exact Int.emod_eq_of_lt h0 hlt
  · intro inputOffset inputLength full_out_id hfull
    simp only [ADDITION_SHADER_body, extractAuxRange]
    set D : ℤ := full_out_id / (2:ℤ)^inputOffset % (2:ℤ)^inputLength with hD
    rw [show (out_id + N - D * 1 % N) % N + N - D * -1 % N
          = (out_id + N - D * 1 % N) % N + (N - D * -1 % N) by ring,
      Int.emod_add_emod,
      show out_id + N - D * 1 % N + (N - D * -1 % N)
          = (out_id + N - D * 1 % N + N) - D * -1 % N by ring,
      emod_sub_emod,
      show out_id + N - D * 1 % N + N - D * -1
          = (out_id + N + N + D) - D * 1 % N by ring,
      emod_sub_emod,
      show out_id + N + N + D - D * 1 = out_id + N * 2 by ring,
      Int.add_mul_emod_self_left]
    exact Int.emod_eq_of_lt h0 hlt

/-- Witness for C3 at span = 3, out_id = 5, auxiliary range offset 0 and
length 3 with full_out_id = 6 (so the extracted value is 6). -/
theorem incrementDecrement_inverse_witness :
    incrementShaderBody ((2:ℤ)^3) (-1) (incrementShaderBody ((2:ℤ)^3) 1 5) = 5
    ∧ ADDITION_SHADER_body ((2:ℤ)^3) ((2:ℤ)^0) ((2:ℤ)^3) (-1) 6
        (ADDITION_SHADER_body ((2:ℤ)^3) ((2:ℤ)^0) ((2:ℤ)^3) 1 6 5) = 5 :=
  ⟨(incrementDecrement_inverse 3 (by norm_num) (by norm_num) 5 (by norm_num) (by norm_num)).1,
   (incrementDecrement_inverse 3 (by norm_num) (by norm_num) 5 (by norm_num) (by norm_num)).2
     0 3 6 (by norm_num)⟩

/-- Reflecting twice around the same point, modulo N, restores any value
already reduced modulo N. -/
theorem reflect_emod (N c out : ℤ) (h0 : 0 ≤ out) (hlt : out < N) :
    (c - (c - out) % N) % N = out := by
  rw [emod_sub_emod, show c - (c - out) = out by ring, Int.emod_eq_of_lt h0 hlt]

/-- C6: for every span, every auxiliary range (offset, length) and every
full_out_id (hence every threshold d the shaders extract), applying the
flip-below body twice restores out_id, and applying the
flip-at-or-below body twice restores out_id. -/
theorem flip_involution (span inputOffset inputLength : ℕ) (full_out_id : ℤ)
    (hfull : 0 ≤ full_out_id) (out_id : ℤ) (h0 : 0 ≤ out_id) (hlt : out_id < 2^span) :
    FLIP_SHADER_body ((2:ℤ)^span) ((2:ℤ)^inputOffset) ((2:ℤ)^inputLength) full_out_id
      (FLIP_SHADER_body ((2:ℤ)^span) ((2:ℤ)^inputOffset) ((2:ℤ)^inputLength) full_out_id
        out_id) = out_id
    ∧ FLIP_SHADER_2_body ((2:ℤ)^span) ((2:ℤ)^inputOffset) ((2:ℤ)^inputLength) full_out_id
      (FLIP_SHADER_2_body ((2:ℤ)^span) ((2:ℤ)^inputOffset) ((2:ℤ)^inputLength) full_out_id
        out_id) = out_id := by
  have hN : (0:ℤ) < 2^span := by positivity
  set N : ℤ := (2:ℤ)^span with hNdef
  constructor
  · simp only [FLIP_SHADER_body, extractAuxRange]
    set D : ℤ := full_out_id / (2:ℤ)^inputOffset % (2:ℤ)^inputLength with hD
    by_cases h : out_id ≥ D
    · rw [if_pos h, if_pos h]
    · rw [if_neg h]
      have hq : ¬((D - 1 - out_id) % N ≥ D) := by
        rcases le_or_lt D N with hDN | hDN
        · have : (D - 1 - out_id) % N = D - 1 - out_id :=
            Int.emod_eq_of_lt (by omega) (by omega)
          omega
        · have : (D - 1 - out_id) % N < N := Int.emod_lt_of_pos _ hN
          omega
      rw [if_neg hq]
      exact reflect_emod N (D - 1) out_id h0 hlt
  · simp only [FLIP_SHADER_2_body, extractAuxRange]
    set D : ℤ := full_out_id / (2:ℤ)^inputOffset % (2:ℤ)^inputLength with hD
    by_cases h : out_id > D
    · rw [if_pos h, if_pos h]
    · rw [if_neg h]
      have hq : ¬((D - out_id) % N > D) := by
        rcases le_or_lt N D with hDN | hDN
        · have : (D - out_id) % N < N := Int.emod_lt_of_pos _ hN
          omega
        · have : (D - out_id) % N = D - out_id :=
            Int.emod_eq_of_lt (by omega) (by omega)
          omega
      rw [if_neg hq]
      exact reflect_emod N D out_id h0 hlt

/-- Witness for C6 at span = 3, auxiliary range offset 0 length 3,
full_out_id = 5 (so the extracted threshold is d = 5), out_id = 2. -/
theorem flip_involution_witness :
    FLIP_SHADER_body ((2:ℤ)^3) ((2:ℤ)^0) ((2:ℤ)^3) 5
      (FLIP_SHADER_body ((2:ℤ)^3) ((2:ℤ)^0) ((2:ℤ)^3) 5 2) = 2
    ∧ FLIP_SHADER_2_body ((2:ℤ)^3) ((2:ℤ)^0) ((2:ℤ)^3) 5
      (FLIP_SHADER_2_body ((2:ℤ)^3) ((2:ℤ)^0) ((2:ℤ)^3) 5 2) = 2 :=
  flip_involution 3 0 3 5 (by norm_num) 2 (by norm_num) (by norm_num)

/-- Compare code spliced in for ArithmeticGates.ALessThanB
(ArithmeticGates.js line 231): `lhs < rhs`. -/
def ALessThanB_compareCode (lhs rhs : ℤ) : Bool := decide (lhs < rhs)

/-- Compare code for ArithmeticGates.AGreaterThanB (line 241): `lhs > rhs`. -/
def AGreaterThanB_compareCode (lhs rhs : ℤ) : Bool := decide (lhs > rhs)

/-- Compare code for ArithmeticGates.ALessThanOrEqualToB (line 251):
`lhs <= rhs`. -/
def ALessThanOrEqualToB_compareCode (lhs rhs : ℤ) : Bool := decide (lhs ≤ rhs)

/-- Compare code for ArithmeticGates.AGreaterThanOrEqualToB (line 261):
`lhs >= rhs`. -/
def AGreaterThanOrEqualToB_compareCode (lhs rhs : ℤ) : Bool := decide (lhs ≥ rhs)

/-- Compare code for ArithmeticGates.AEqualToB (line 271): `lhs == rhs`. -/
def AEqualToB_compareCode (lhs rhs : ℤ) : Bool := decide (lhs = rhs)

/-- Compare code for ArithmeticGates.ANotEqualToB (line 281): `lhs != rhs`. -/
def ANotEqualToB_compareCode (lhs rhs : ℤ) : Bool := decide (lhs ≠ rhs)

/-- C5 (amended): each comparison gate's single-qubit body toggles the
target bit — computing mod(out_id + 1, 2) — exactly when the literal
integer comparison of the two extracted auxiliary values holds, and
returns out_id unchanged otherwise; the shader is built with the
permutation shape (ketShaderPermute) restricted to 1 qubit. -/
theorem comparison_gates_toggle (lhsOffset lhsLength rhsOffset rhsLength : ℕ)
    (full_out_id : ℤ) (hfull : 0 ≤ full_out_id)
    (out_id : ℤ) (hout : 0 ≤ out_id) (hlt : out_id < 2) :
    (customComparisonShaderBody ALessThanB_compareCode ((2:ℤ)^lhsOffset) ((2:ℤ)^lhsLength)
        ((2:ℤ)^rhsOffset) ((2:ℤ)^rhsLength) full_out_id out_id
      = if extractAuxRange ((2:ℤ)^lhsOffset) ((2:ℤ)^lhsLength) full_out_id
            < extractAuxRange ((2:ℤ)^rhsOffset) ((2:ℤ)^rhsLength) full_out_id
        then (out_id + 1) % 2 else out_id)
    ∧ (customComparisonShaderBody AGreaterThanB_compareCode ((2:ℤ)^lhsOffset) ((2:ℤ)^lhsLength)
        ((2:ℤ)^rhsOffset) ((2:ℤ)^rhsLength) full_out_id out_id
      = if extractAuxRange ((2:ℤ)^lhsOffset) ((2:ℤ)^lhsLength) full_out_id
            > extractAuxRange ((2:ℤ)^rhsOffset) ((2:ℤ)^rhsLength) full_out_id
        then (out_id + 1) % 2 else out_id)
    ∧ (customComparisonShaderBody ALessThanOrEqualToB_compareCode ((2:ℤ)^lhsOffset)
        ((2:ℤ)^lhsLength) ((2:ℤ)^rhsOffset) ((2:ℤ)^rhsLength) full_out_id out_id
      = if extractAuxRange ((2:ℤ)^lhsOffset) ((2:ℤ)^lhsLength) full_out_id
            ≤ extractAuxRange ((2:ℤ)^rhsOffset) ((2:ℤ)^rhsLength) full_out_id
        then (out_id + 1) % 2 else out_id)
    ∧ (customComparisonShaderBody AGreaterThanOrEqualToB_compareCode ((2:ℤ)^lhsOffset)
        ((2:ℤ)^lhsLength) ((2:ℤ)^rhsOffset) ((2:ℤ)^rhsLength) full_out_id out_id
      = if extractAuxRange ((2:ℤ)^lhsOffset) ((2:ℤ)^lhsLength) full_out_id
            ≥ extractAuxRange ((2:ℤ)^rhsOffset) ((2:ℤ)^rhsLength) full_out_id
        then (out_id + 1) % 2 else out_id)
    ∧ (customComparisonShaderBody AEqualToB_compareCode ((2:ℤ)^lhsOffset) ((2:ℤ)^lhsLength)
        ((2:ℤ)^rhsOffset) ((2:ℤ)^rhsLength) full_out_id out_id
      = if extractAuxRange ((2:ℤ)^lhsOffset) ((2:ℤ)^lhsLength) full_out_id
            = extractAuxRange ((2:ℤ)^rhsOffset) ((2:ℤ)^rhsLength) full_out_id
        then (out_id + 1) % 2 else out_id)
    ∧ (customComparisonShaderBody ANotEqualToB_compareCode ((2:ℤ)^lhsOffset) ((2:ℤ)^lhsLength)
        ((2:ℤ)^rhsOffset) ((2:ℤ)^rhsLength) full_out_id out_id
      = if extractAuxRange ((2:ℤ)^lhsOffset) ((2:ℤ)^lhsLength) full_out_id
            ≠ extractAuxRange ((2:ℤ)^rhsOffset) ((2:ℤ)^rhsLength) full_out_id
        then (out_id + 1) % 2 else out_id)
    ∧ customComparisonShaderKind = KetShaderKind.permutation := by
  refine ⟨?_, ?_, ?_, ?_, ?_, ?_, rfl⟩ <;>
  · simp only [customComparisonShaderBody, ALessThanB_compareCode, AGreaterThanB_compareCode,
      ALessThanOrEqualToB_compareCode, AGreaterThanOrEqualToB_compareCode,
      AEqualToB_compareCode, ANotEqualToB_compareCode, decide_eq_true_eq]
    split
    · rfl
    · rw [add_zero, Int.emod_eq_of_lt hout hlt]

/-- Witness for C5 with range lengths 2 and 3: lhs range at offset 1
length 2, rhs range at offset 3 length 3, full_out_id = 45 (target bit 1,
a = 2, b = 5), out_id = 1. -/
theorem comparison_gates_toggle_witness :
    (customComparisonShaderBody ALessThanB_compareCode ((2:ℤ)^1) ((2:ℤ)^2)
        ((2:ℤ)^3) ((2:ℤ)^3) 45 1
      = if extractAuxRange ((2:ℤ)^1) ((2:ℤ)^2) 45 < extractAuxRange ((2:ℤ)^3) ((2:ℤ)^3) 45
        then ((1:ℤ) + 1) % 2 else 1)
    ∧ (customComparisonShaderBody AGreaterThanB_compareCode ((2:ℤ)^1) ((2:ℤ)^2)
        ((2:ℤ)^3) ((2:ℤ)^3) 45 1
      = if extractAuxRange ((2:ℤ)^1) ((2:ℤ)^2) 45 > extractAuxRange ((2:ℤ)^3) ((2:ℤ)^3) 45
        then ((1:ℤ) + 1) % 2 else 1)
    ∧ (customComparisonShaderBody ALessThanOrEqualToB_compareCode ((2:ℤ)^1) ((2:ℤ)^2)
        ((2:ℤ)^3) ((2:ℤ)^3) 45 1
      = if extractAuxRange ((2:ℤ)^1) ((2:ℤ)^2) 45 ≤ extractAuxRange ((2:ℤ)^3) ((2:ℤ)^3) 45
        then ((1:ℤ) + 1) % 2 else 1)
    ∧ (customComparisonShaderBody AGreaterThanOrEqualToB_compareCode ((2:ℤ)^1) ((2:ℤ)^2)
        ((2:ℤ)^3) ((2:ℤ)^3) 45 1
      = if extractAuxRange ((2:ℤ)^1) ((2:ℤ)^2) 45 ≥ extractAuxRange ((2:ℤ)^3) ((2:ℤ)^3) 45
        then ((1:ℤ) + 1) % 2 else 1)
    ∧ (customComparisonShaderBody AEqualToB_compareCode ((2:ℤ)^1) ((2:ℤ)^2)
        ((2:ℤ)^3) ((2:ℤ)^3) 45 1
      = if extractAuxRange ((2:ℤ)^1) ((2:ℤ)^2) 45 = extractAuxRange ((2:ℤ)^3) ((2:ℤ)^3) 45
        then ((1:ℤ) + 1) % 2 else 1)
    ∧ (customComparisonShaderBody ANotEqualToB_compareCode ((2:ℤ)^1) ((2:ℤ)^2)
        ((2:ℤ)^3) ((2:ℤ)^3) 45 1
      = if extractAuxRange ((2:ℤ)^1) ((2:ℤ)^2) 45 ≠ extractAuxRange ((2:ℤ)^3) ((2:ℤ)^3) 45
        then ((1:ℤ) + 1) % 2 else 1)
    ∧ customComparisonShaderKind = KetShaderKind.permutation :=
  comparison_gates_toggle 1 2 3 3 45 (by norm_num) 1 (by norm_num) (by norm_num)

/-- C5 counterexample: the claim asserts the comparison gates are expressed
as the general-transform shape, but customComparisonShader builds its
shader with ketShaderPermute, the permutation shape. -/
theorem comparison_gates_shape_counterexample :
    customComparisonShaderKind ≠ KetShaderKind.general := by
  decide

/-- Known-matrix exposure of the Increment family (ArithmeticGates.js line
117): `withKnownMatrix(span >= 4 ? undefined : INCREMENT_MATRIX_MAKER(span))`. -/
def incrementFamilyKnownMatrix (span : ℕ) : Option TransitionMatrix :=
  if 4 ≤ span then none else some (INCREMENT_MATRIX_MAKER span)

/-- Known-matrix exposure of the Decrement family (line 128). -/
def decrementFamilyKnownMatrix (span : ℕ) : Option TransitionMatrix :=
  if 4 ≤ span then none else some (DECREMENT_MATRIX_MAKER span)

/-- Known-matrix exposure of the Addition family (line 139):
`withKnownMatrix(span >= 5 ? undefined : ADDITION_MATRIX_MAKER(span))`. -/
def additionFamilyKnownMatrix (span : ℕ) : Option TransitionMatrix :=
  if 5 ≤ span then none else some (ADDITION_MATRIX_MAKER span)

/-- Known-matrix exposure of the Subtraction family (line 156). -/
def subtractionFamilyKnownMatrix (span : ℕ) : Option TransitionMatrix :=
  if 5 ≤ span then none else some (SUBTRACTION_MATRIX_MAKER span)

/-- Preimage computed by the Increment/Decrement gate's shader dispatch
(lines 120, 131: `incrementShaderFunc(ctx, span, ±1)`), with the `span`
uniform bound to 2^span by ketArgs (modelled from the spec: ketArgs lives
in KetShaderUtil.js, not under src/; the spec states the span uniform
holds the qubit span as a power of 2). -/
def incrementGatePre (span : ℕ) (amount : ℤ) (e : ℕ) : ℤ :=
  incrementShaderBody ((2:ℤ)^span) amount (e : ℤ)

/-- Preimage on the Addition/Subtraction gate's whole span induced by its
shader dispatch (lines 143-148, 160-165): the shader runs over the
accumulator half, sb = ceil(span/2) qubits at row + sa, with
srcOffset = 1 << row and srcSpan = 1 << sa reading the addend half.
Modelled from the spec for the parts outside src/: ketShaderPermute reads
the amplitude at the body's returned local index, full_out_id is the
global index, and bits outside the dispatched slice stay fixed.  Taking
row = 0, the gate's local basis state e has full_out_id = e, the shader's
out_id is the slice (e / 2^sa) mod 2^sb, and the read position recombines
the unchanged addend with the body's result. -/
def additionGateShaderPre (span : ℕ) (factor : ℤ) (e : ℕ) : ℤ :=
  let sa := span / 2
  let sb := (span + 1) / 2
  let full_out_id : ℤ := (e : ℤ)
  let out_id : ℤ := extractAuxRange ((2:ℤ)^sa) ((2:ℤ)^sb) full_out_id
  let pre := ADDITION_SHADER_body ((2:ℤ)^sb) ((2:ℤ)^0) ((2:ℤ)^sa) factor full_out_id out_id
  ((e % 2^sa : ℕ) : ℤ) + pre * 2^sa

/-- C4: for spans below each gate's matrix threshold (4 for increment and
decrement, 5 for addition and subtraction) the gate exposes the explicit
dense transition matrix, and that matrix's forward map undoes the
shader-derived preimage on every basis state (so the shader body computes
the preimage of the permutation generating the matrix); at or above the
threshold no known matrix is exposed. -/
theorem matrixShaderAgreement (span : ℕ) (h1 : 1 ≤ span) (h16 : span ≤ 16) :
    (span < 4 → incrementFamilyKnownMatrix span = some (INCREMENT_MATRIX_MAKER span)
      ∧ ∀ e : ℕ, e < 2^span →
          (incrementGatePre span 1 e).toNat < 2^span
          ∧ (INCREMENT_MATRIX_MAKER span).map (incrementGatePre span 1 e).toNat = e)
    ∧ (4 ≤ span → incrementFamilyKnownMatrix span = none)
    ∧ (span < 4 → decrementFamilyKnownMatrix span = some (DECREMENT_MATRIX_MAKER span)
      ∧ ∀ e : ℕ, e < 2^span →
          (incrementGatePre span (-1) e).toNat < 2^span
          ∧ (DECREMENT_MATRIX_MAKER span).map (incrementGatePre span (-1) e).toNat = e)
    ∧ (4 ≤ span → decrementFamilyKnownMatrix span = none)
    ∧ (2 ≤ span → span < 5 → additionFamilyKnownMatrix span = some (ADDITION_MATRIX_MAKER span)
      ∧ ∀ e : ℕ, e < 2^span →
          (additionGateShaderPre span 1 e).toNat < 2^span
          ∧ (ADDITION_MATRIX_MAKER span).map (additionGateShaderPre span 1 e).toNat = e)
    ∧ (5 ≤ span → additionFamilyKnownMatrix span = none)
    ∧ (2 ≤ span → span < 5 → subtractionFamilyKnownMatrix span = some (SUBTRACTION_MATRIX_MAKER span)
      ∧ ∀ e : ℕ, e < 2^span →
          (additionGateShaderPre span (-1) e).toNat < 2^span
          ∧ (SUBTRACTION_MATRIX_MAKER span).map (additionGateShaderPre span (-1) e).toNat = e)
    ∧ (5 ≤ span → subtractionFamilyKnownMatrix span = none) := by
  refine ⟨?_, ?_, ?_, ?_, ?_, ?_, ?_, ?_⟩
  · intro h
    refine ⟨by unfold incrementFamilyKnownMatrix; rw [if_neg (by omega)], ?_⟩
    interval_cases span <;> decide
  · intro h
    unfold incrementFamilyKnownMatrix
    rw [if_pos h]
  · intro h
    refine ⟨by unfold decrementFamilyKnownMatrix; rw [if_neg (by omega)], ?_⟩
    interval_cases span <;> decide
  · intro h
    unfold decrementFamilyKnownMatrix
    rw [if_pos h]
  · intro h2 h5
    refine ⟨by unfold additionFamilyKnownMatrix; rw [if_neg (by omega)], ?_⟩
    interval_cases span <;> decide
  · intro h
    unfold additionFamilyKnownMatrix
    rw [if_pos h]
  · intro h2 h5
    refine ⟨by unfold subtractionFamilyKnownMatrix; rw [if_neg (by omega)], ?_⟩
    interval_cases span <;> decide
  · intro h
    unfold subtractionFamilyKnownMatrix
    rw [if_pos h]

/-- Witness for C4: increment at span 3 on basis state 6, and subtraction
at span 4 on basis state 11. -/
theorem matrixShaderAgreement_witness :
    ((incrementGatePre 3 1 6).toNat < 2^3
      ∧ (INCREMENT_MATRIX_MAKER 3).map (incrementGatePre 3 1 6).toNat = 6)
    ∧ ((additionGateShaderPre 4 (-1) 11).toNat < 2^4
      ∧ (SUBTRACTION_MATRIX_MAKER 4).map (additionGateShaderPre 4 (-1) 11).toNat = 11) :=
  ⟨((matrixShaderAgreement 3 (by norm_num) (by norm_num)).1 (by norm_num)).2 6 (by norm_num),
   ((matrixShaderAgreement 4 (by norm_num) (by norm_num)).2.2.2.2.2.2.1
      (by norm_num) (by norm_num)).2 11 (by norm_num)⟩

/-- WglTexture: only the pixel dimensions matter here.  Modelled from the
spec: WglTexture.js is not under src/; `sizePower()` is the base-2
exponent of the pixel count (textures are power-of-two sized). -/
structure WglTexture where
  width : ℕ
  height : ℕ

/-- Modelled from the spec: the base-2 exponent of the texture's pixel
count. -/
def WglTexture.sizePower (t : WglTexture) : ℕ := Nat.log2 (t.width * t.height)

/-- SingleTypeCoder.arrayPowerSizeOfTexture (ArithmeticGates.js lines
367-369): `tex.sizePower() - this.powerSizeOverhead`, parameterized here
by the coder's powerSizeOverhead field. -/
def arrayPowerSizeOfTexture (powerSizeOverhead : ℕ) (tex : WglTexture) : ℕ :=
  tex.sizePower - powerSizeOverhead

/-- powerSizeOverhead of BOOL_TYPE_CODER (ArithmeticGates.js line 447). -/
def BOOL_TYPE_CODER_powerSizeOverhead : ℕ := 0

/-- Values stored per pixel are modelled over ℚ: GLSL floats are exact on
the integers and halves appearing here.  A texture's contents are a
function from pixel coordinates to the stored first component. -/
def TexData : Type := ℕ × ℕ → ℚ

/-- Modelled from the spec: nearest-neighbour sampling; `texture2D(t, uv).x`
with uv in [0,1)² reads the first component of the pixel whose cell
contains uv, namely pixel (floor(u·w), floor(v·h)). -/
def texture2D_x (tex : TexData) (w h : ℕ) (uv : ℚ × ℚ) : ℚ :=
  tex ((⌊uv.1 * w⌋).toNat, (⌊uv.2 * h⌋).toNat)

/-- Texture coordinate computed by `read_<name>` of boolInputPartGetter
(ArithmeticGates.js lines 406-408):
`vec2(mod(k, size.x) + 0.5, floor(k / size.x) + 0.5) / size`. -/
def boolInput_read_uv (w h k : ℕ) : ℚ × ℚ :=
  ((((k % w : ℕ) : ℚ) + 1/2) / w, (((k / w : ℕ) : ℚ) + 1/2) / h)

/-- The `read_<name>` function of boolInputPartGetter (lines 406-410):
`return float(texture2D(tex, uv).x == 1.0);`. -/
def boolInput_read (tex : TexData) (w h k : ℕ) : ℚ :=
  let uv := boolInput_read_uv w h k
  if texture2D_x tex w h uv = 1 then 1 else 0

/-- The `len_<name>` function of boolInputPartGetter (lines 412-414):
`return size.x * size.y * 4.0;`. -/
def boolInput_len (w h : ℕ) : ℚ := (w : ℚ) * h * 4

/-- The `main` function of BOOL_OUTPUT_PART (lines 433-437), with the
`_gen_secret_half` uniform bound to 0.5 (line 441): subtracts half a pixel
from the fragment coordinate, derives the row-major logical index k, and
writes `vec4(float(outputFor(k)), 0.0, 0.0, 0.0)`. -/
def BOOL_OUTPUT_PART_main (outputFor : ℚ → Bool) (w : ℕ) (fragCoord : ℚ × ℚ) :
    ℚ × ℚ × ℚ × ℚ :=
  let xy : ℚ × ℚ := (fragCoord.1 - 1/2, fragCoord.2 - 1/2)
  let k := xy.2 * w + xy.1
  (if outputFor k then 1 else 0, 0, 0, 0)

/-- Sampling at the center of a pixel returns that pixel. -/
theorem floor_center_div_mul (n m : ℕ) (hm : 0 < m) :
    (⌊(((n : ℚ)) + 1/2) / m * m⌋).toNat = n := by
  rw [div_mul_cancel₀ _ (by exact_mod_cast hm.ne' : (m:ℚ) ≠ 0)]
  have h1 : (((n:ℤ)):ℚ) ≤ (n:ℚ) + 1/2 := by push_cast; linarith
  have h2 : (n:ℚ) + 1/2 < (n:ℤ) + 1 := by push_cast; linarith
  rw [Int.floor_eq_iff.mpr ⟨h1, h2⟩, Int.toNat_natCast]

/-- C7: read_<name>(k) samples the texture at
((k mod w) + 0.5, floor(k / w) + 0.5) / (w, h) — the center of pixel
(k mod w, k / w) — and decodes the stored first component to 1.0 exactly
when it equals 1.0, and to 0.0 for every other stored value. -/
theorem boolInput_read_spec (tex : TexData) (w h k : ℕ) (hw : 0 < w) (hh : 0 < h) :
    boolInput_read_uv w h k
        = ((((k % w : ℕ) : ℚ) + 1/2) / w, (((k / w : ℕ) : ℚ) + 1/2) / h)
    ∧ texture2D_x tex w h (boolInput_read_uv w h k) = tex (k % w, k / w)
    ∧ (boolInput_read tex w h k = 1 ↔ tex (k % w, k / w) = 1)
    ∧ (tex (k % w, k / w) ≠ 1 → boolInput_read tex w h k = 0) := by
  have hsample : texture2D_x tex w h (boolInput_read_uv w h k) = tex (k % w, k / w) := by
    unfold texture2D_x boolInput_read_uv
    rw [floor_center_div_mul _ _ hw, floor_center_div_mul _ _ hh]
  have hread : boolInput_read tex w h k
      = if texture2D_x tex w h (boolInput_read_uv w h k) = 1 then 1 else 0 := rfl
  refine ⟨rfl, hsample, ?_, ?_⟩
  · rw [hread, hsample]
    split
    · rename_i hcond; simp [hcond]
    · rename_i hcond; simp [hcond]
  · intro hne
    rw [hread, hsample, if_neg hne]

/-- Witness for C7: a 2×2 texture storing 0.5 at pixel (1,1), read at
logical index k = 3. -/
theorem boolInput_read_spec_witness :
    (boolInput_read_uv 2 2 3
        = ((((3 % 2 : ℕ) : ℚ) + 1/2) / 2, (((3 / 2 : ℕ) : ℚ) + 1/2) / 2)
    ∧ texture2D_x (fun p => if p = (1, 1) then 1/2 else 0) 2 2 (boolInput_read_uv 2 2 3)
        = (fun p : ℕ × ℕ => if p = (1, 1) then (1/2 : ℚ) else 0) (3 % 2, 3 / 2)
    ∧ (boolInput_read (fun p => if p = (1, 1) then 1/2 else 0) 2 2 3 = 1
        ↔ (fun p : ℕ × ℕ => if p = (1, 1) then (1/2 : ℚ) else 0) (3 % 2, 3 / 2) = 1)
    ∧ ((fun p : ℕ × ℕ => if p = (1, 1) then (1/2 : ℚ) else 0) (3 % 2, 3 / 2) ≠ 1 →
        boolInput_read (fun p => if p = (1, 1) then 1/2 else 0) 2 2 3 = 0)) :=
  boolInput_read_spec (fun p => if p = (1, 1) then 1/2 else 0) 2 2 3
    (by norm_num) (by norm_num)

/-- C8: the bool coder declares powerSizeOverhead 0, so the logical
element count of a texture is its pixel count (2^sizePower); but
len_<name>() computes width·height·4.0, four times the pixel count — at a
2×2 texture len returns 16 while the coder's array size is 4 elements. -/
theorem boolInput_len_bug :
    BOOL_TYPE_CODER_powerSizeOverhead = 0
    ∧ boolInput_len 2 2 = 16
    ∧ 2 ^ (arrayPowerSizeOfTexture BOOL_TYPE_CODER_powerSizeOverhead ⟨2, 2⟩) = 4
    ∧ boolInput_len 2 2
        ≠ ((2 ^ (arrayPowerSizeOfTexture BOOL_TYPE_CODER_powerSizeOverhead ⟨2, 2⟩) : ℕ) : ℚ)
    ∧ boolInput_len 2 2 ≠ ((2 * 2 : ℕ) : ℚ) := by
  have harr : arrayPowerSizeOfTexture BOOL_TYPE_CODER_powerSizeOverhead ⟨2, 2⟩ = 2 := by
    simp [arrayPowerSizeOfTexture, WglTexture.sizePower, BOOL_TYPE_CODER_powerSizeOverhead,
      Nat.log2]
  refine ⟨rfl, by norm_num [boolInput_len], by rw [harr]; norm_num, ?_, ?_⟩
  · rw [harr]; norm_num [boolInput_len]
  · norm_num [boolInput_len]

/-- C10: every pixel written by the boolean output part is
(v, 0, 0, 0) with v the 0/1 encoding of outputFor at the logical index
k = (fragY - 0.5)·width + (fragX - 0.5); at pixel centers that index is
the row-major pixel index, so distinct pixels write distinct logical
elements. -/
theorem BOOL_OUTPUT_PART_main_spec (outputFor : ℚ → Bool) (w : ℕ) (hw : 0 < w)
    (fragCoord : ℚ × ℚ) (x y x' y' : ℕ) (hx : x < w) (hx' : x' < w) :
    BOOL_OUTPUT_PART_main outputFor w fragCoord
        = (if outputFor ((fragCoord.2 - 1/2) * w + (fragCoord.1 - 1/2)) then 1 else 0,
           0, 0, 0)
    ∧ ((BOOL_OUTPUT_PART_main outputFor w fragCoord).1 = 0
        ∨ (BOOL_OUTPUT_PART_main outputFor w fragCoord).1 = 1)
    ∧ ((((y : ℚ) + 1/2) - 1/2) * w + (((x : ℚ) + 1/2) - 1/2)
          = (((y' : ℚ) + 1/2) - 1/2) * w + (((x' : ℚ) + 1/2) - 1/2)
        → x = x' ∧ y = y') := by
  refine ⟨rfl, ?_, ?_⟩
  · have hfst : (BOOL_OUTPUT_PART_main outputFor w fragCoord).1
        = if outputFor ((fragCoord.2 - 1/2) * w + (fragCoord.1 - 1/2)) then 1 else 0 := rfl
    rw [hfst]
    split
    · right; rfl
    · left; rfl
  · intro hk
    have hq : ((y * w + x : ℕ) : ℚ) = ((y' * w + x' : ℕ) : ℚ) := by
      push_cast
      ring_nf at hk ⊢
      linarith
    have hn : y * w + x = y' * w + x' := by exact_mod_cast hq
    have hxmod : ∀ a b : ℕ, b < w → (a * w + b) % w = b := by
      intro a b hb
      rw [Nat.add_comm, Nat.add_mul_mod_self_right, Nat.mod_eq_of_lt hb]
    have hydiv : ∀ a b : ℕ, b < w → (a * w + b) / w = a := by
      intro a b hb
      rw [Nat.add_comm, Nat.add_mul_div_right _ _ hw, Nat.div_eq_of_lt hb, Nat.zero_add]
    constructor
    · have := hxmod y x hx
      rw [hn, hxmod y' x' hx'] at this
      omega
    · have := hydiv y x hx
      rw [hn, hydiv y' x' hx'] at this
      omega

/-- Witness for C10 at a 2-pixel-wide target, fragment (1.5, 1.5),
pixels (1,0) and (1,0). -/
theorem BOOL_OUTPUT_PART_main_spec_witness :
    BOOL_OUTPUT_PART_main (fun q => decide (q = 3)) 2 (3/2, 3/2)
        = (if (fun q : ℚ => decide (q = 3))
              (((3/2 : ℚ) - 1/2) * ((2:ℕ):ℚ) + ((3/2 : ℚ) - 1/2))
           then 1 else 0, 0, 0, 0)
    ∧ ((BOOL_OUTPUT_PART_main (fun q => decide (q = 3)) 2 (3/2, 3/2)).1 = 0
        ∨ (BOOL_OUTPUT_PART_main (fun q => decide (q = 3)) 2 (3/2, 3/2)).1 = 1)
    ∧ (((((0:ℕ):ℚ) + 1/2) - 1/2) * ((2:ℕ):ℚ) + ((((1:ℕ):ℚ) + 1/2) - 1/2)
          = ((((0:ℕ):ℚ) + 1/2) - 1/2) * ((2:ℕ):ℚ) + ((((1:ℕ):ℚ) + 1/2) - 1/2)
        → (1:ℕ) = 1 ∧ (0:ℕ) = 0) :=
  BOOL_OUTPUT_PART_main_spec (fun q => decide (q = 3)) 2 (by norm_num)
    (3/2, 3/2) 1 0 1 0 (by norm_num) (by norm_num)

/-- An auxiliary bit range, the value stored in the context map under keys
like "Input Range A": an (offset, length) pair. -/
structure AuxRange where
  offset : ℕ
  length : ℕ

/-- The slice of CircuitEvalContext the arithmetic gates consume: the
gate's row and the name-keyed auxiliary ranges.  `customContextFromGates`
is a JS Map; its `get` returns undefined for a missing key, embedded as
`List.lookup` returning none. -/
structure CircuitEvalContext where
  row : ℕ
  customContextFromGates : List (String × AuxRange)

/-- Lookup in the context map (`ctx.customContextFromGates.get(key)`). -/
def CircuitEvalContext.getContext (ctx : CircuitEvalContext) (key : String) : Option AuxRange :=
  ctx.customContextFromGates.lookup key

/-- A configured shader: the dispatched shader plus the numeric uniform
arguments bound by `withArgs` (the texture/workspace arguments also bound
by ketArgs carry no information relevant to the claims and are omitted). -/
structure WglConfiguredShader where
  shaderName : String
  args : List (String × ℤ)

/-- additionShaderFunc (ArithmeticGates.js lines 72-78): configures
ADDITION_SHADER with srcOffset = 1 << srcOffset, srcSpan = 1 << srcSpan,
factor, and the ketArgs span uniform 2^span. -/
def additionShaderFunc (ctx : CircuitEvalContext) (span srcOffset srcSpan : ℕ)
    (scaleFactor : ℤ) : WglConfiguredShader :=
  ⟨"ADDITION_SHADER",
   [("span", (2:ℤ)^span), ("srcOffset", (2:ℤ)^srcOffset), ("srcSpan", (2:ℤ)^srcSpan),
    ("factor", scaleFactor)]⟩

/-- flipShaderFunc (lines 48-53). -/
def flipShaderFunc (ctx : CircuitEvalContext) (span srcOffset srcSpan : ℕ) :
    WglConfiguredShader :=
  ⟨"FLIP_SHADER",
   [("span", (2:ℤ)^span), ("srcOffset", (2:ℤ)^srcOffset), ("srcSpan", (2:ℤ)^srcSpan)]⟩

/-- flipShaderFunc2 (lines 60-65). -/
def flipShaderFunc2 (ctx : CircuitEvalContext) (span srcOffset srcSpan : ℕ) :
    WglConfiguredShader :=
  ⟨"FLIP_SHADER_2",
   [("span", (2:ℤ)^span), ("srcOffset", (2:ℤ)^srcOffset), ("srcSpan", (2:ℤ)^srcSpan)]⟩

/-- withCustomShader body of the PlusAFamily (lines 176-179): destructures
`ctx.customContextFromGates.get('Input Range A')`.  In JS, a missing key
yields undefined and the destructuring throws before any shader is
configured; embedded as Option with none for the thrown error. -/
def plusAFamilyShader (span : ℕ) (ctx : CircuitEvalContext) : Option WglConfiguredShader :=
  match ctx.getContext "Input Range A" with
  | some r => some (additionShaderFunc ctx span r.offset r.length 1)
  | none => none

/-- withCustomShader body of the MinusAFamily (lines 190-193). -/
def minusAFamilyShader (span : ℕ) (ctx : CircuitEvalContext) : Option WglConfiguredShader :=
  match ctx.getContext "Input Range A" with
  | some r => some (additionShaderFunc ctx span r.offset r.length (-1))
  | none => none

/-- withCustomShader body of the FlipBelow family (lines 204-207). -/
def flipBelowShader (span : ℕ) (ctx : CircuitEvalContext) : Option WglConfiguredShader :=
  match ctx.getContext "Input Range A" with
  | some r => some (flipShaderFunc ctx span r.offset r.length)
  | none => none

/-- withCustomShader body of the FlipBelow2 family (lines 218-221). -/
def flipBelow2Shader (span : ℕ) (ctx : CircuitEvalContext) : Option WglConfiguredShader :=
  match ctx.getContext "Input Range A" with
  | some r => some (flipShaderFunc2 ctx span r.offset r.length)
  | none => none

/-- The configuring closure returned by customComparisonShader (lines
99-108): destructures both 'Input Range A' and 'Input Range B' from the
context before configuring the shader. -/
def customComparisonShaderFunc (compareCode : String) (ctx : CircuitEvalContext) :
    Option WglConfiguredShader :=
  match ctx.getContext "Input Range A", ctx.getContext "Input Range B" with
  | some a, some b =>
      some ⟨"customComparisonShader " ++ compareCode,
        [("span", (2:ℤ)^1), ("lhsOffset", (2:ℤ)^a.offset), ("rhsOffset", (2:ℤ)^b.offset),
         ("lhsSpan", (2:ℤ)^a.length), ("rhsSpan", (2:ℤ)^b.length)]⟩
  | _, _ => none

/-- withRequiredContextKeys of the PlusAFamily (line 175). -/
def plusAFamilyRequiredContextKeys : List String := ["Input Range A"]

/-- withRequiredContextKeys of the MinusAFamily (line 189). -/
def minusAFamilyRequiredContextKeys : List String := ["Input Range A"]

/-- withRequiredContextKeys of the FlipBelow family (line 203). -/
def flipBelowRequiredContextKeys : List String := ["Input Range A"]

/-- withRequiredContextKeys of the FlipBelow2 family (line 217). -/
def flipBelow2RequiredContextKeys : List String := ["Input Range A"]

/-- withRequiredContextKeys shared by the six comparison gates (lines 230,
240, 250, 260, 270, 280). -/
def comparisonGatesRequiredContextKeys : List String := ["Input Range A", "Input Range B"]

/-- C9: the +A, -A, Flip<A and Flip<=A families declare "Input Range A"
required and the six comparison gates declare "Input Range A" and "Input
Range B"; evaluating any of their shaders against a context lacking a
required name fails (no configured shader is produced) instead of
defaulting the range. -/
theorem missingContext_fails (span : ℕ) (ctx : CircuitEvalContext) :
    (plusAFamilyRequiredContextKeys = ["Input Range A"]
      ∧ minusAFamilyRequiredContextKeys = ["Input Range A"]
      ∧ flipBelowRequiredContextKeys = ["Input Range A"]
      ∧ flipBelow2RequiredContextKeys = ["Input Range A"]
      ∧ comparisonGatesRequiredContextKeys = ["Input Range A", "Input Range B"])
    ∧ (ctx.getContext "Input Range A" = none →
        plusAFamilyShader span ctx = none
        ∧ minusAFamilyShader span ctx = none
        ∧ flipBelowShader span ctx = none
        ∧ flipBelow2Shader span ctx = none
        ∧ ∀ compareCode : String, customComparisonShaderFunc compareCode ctx = none)
    ∧ (ctx.getContext "Input Range B" = none →
        ∀ compareCode : String, customComparisonShaderFunc compareCode ctx = none) := by
  refine ⟨⟨rfl, rfl, rfl, rfl, rfl⟩, ?_, ?_⟩
  · intro h
    refine ⟨?_, ?_, ?_, ?_, ?_⟩
    · simp [plusAFamilyShader, h]
    · simp [minusAFamilyShader, h]
    · simp [flipBelowShader, h]
    · simp [flipBelow2Shader, h]
    · intro compareCode
      cases hB : ctx.getContext "Input Range B" <;>
        simp [customComparisonShaderFunc, h, hB]
  · intro h compareCode
    cases hA : ctx.getContext "Input Range A" <;>
      simp [customComparisonShaderFunc, h, hA]

/-- Witness for C9: the empty context at span 2. -/
theorem missingContext_fails_witness :
    plusAFamilyShader 2 ⟨0, []⟩ = none
    ∧ customComparisonShaderFunc "lhs < rhs" ⟨0, []⟩ = none :=
  ⟨((missingContext_fails 2 ⟨0, []⟩).2.1 rfl).1,
   ((missingContext_fails 2 ⟨0, []⟩).2.2 rfl) "lhs < rhs"⟩

end Quirk
